import Mathlib

/-
Shallow embedding of
`src/ompl_interface/src/modified_planners/goal_region_sampler.cpp`
(class `ompl_interface::GoalRegionSampler`).

Real-valued quantities (C++ `double`) are modelled over `ℚ` so that every
definition is executable and every concrete instance is decidable.  External
collaborators (forward kinematics, the constraint projector, the kinematic
constraint evaluator, the state validity checker, the OMPL sampler state and
the SE3 pose sampler) are modelled as explicit inputs: the values they return
are parameters of the embedded functions, mirroring the narrow interfaces the
source calls through.
-/

namespace GoalRegionSampler

/-- One axis of a `moveit_msgs::WorkspaceGoalRegion` position box: the
`.min` / `.max` bounds read by the source. -/
structure AxisBounds where
  min : ℚ
  max : ℚ
deriving DecidableEq

/-- One orientation axis of a `moveit_msgs::WorkspaceGoalRegion`: the source
only ever reads its `free_value` flag. -/
structure OrientAxis where
  free_value : Bool
deriving DecidableEq

/-- `moveit_msgs::WorkspaceGoalRegion`: an axis-aligned position box plus a
free/fixed marking for each of the roll, pitch and yaw axes. -/
structure WorkspaceGoalRegion where
  x : AxisBounds
  y : AxisBounds
  z : AxisBounds
  roll : OrientAxis
  pitch : OrientAxis
  yaw : OrientAxis
deriving DecidableEq

/-- The orientation part of a region's `moveit_msgs::Constraints` entry.  The
source stores a quaternion and converts it to roll/pitch/yaw with
`tf::Matrix3x3::getRPY` whenever it needs angles; the conversion is an
external library call, so the embedding keeps the angles directly. -/
structure OrientRPY where
  roll : ℚ
  pitch : ℚ
  yaw : ℚ
deriving DecidableEq

/-- The part of a region's `moveit_msgs::Constraints` message that the source
reads and writes: the position of
`position_constraints[0].constraint_region.primitive_poses[0]` and the
orientation of `orientation_constraints[0]` (kept as roll/pitch/yaw, see
`OrientRPY`). -/
structure ConstraintMsg where
  pos_x : ℚ
  pos_y : ℚ
  pos_z : ℚ
  orient : OrientRPY
deriving DecidableEq

/-- An end-effector frame as produced by
`kinematic_state_->getGlobalLinkTransform("gripper_link")`: a translation and
the roll/pitch/yaw of its rotation (extracted by `getRPY` in the source). -/
structure EEPose where
  px : ℚ
  py : ℚ
  pz : ℚ
  roll : ℚ
  pitch : ℚ
  yaw : ℚ
deriving DecidableEq

/-- The fixed-orientation tolerance 0.02 rad of `distanceGoal` (source lines
186-190). -/
def epsOrient : ℚ := 1/50

/-- The position test of `distanceGoal` (source lines 155-158): the
end-effector translation is compared against the region's x and y bounds
only.  The z bounds of the region are not consulted anywhere in
`distanceGoal`. -/
def posInBoxXY (r : WorkspaceGoalRegion) (p : EEPose) : Bool :=
  decide (r.x.min ≤ p.px) && decide (p.px ≤ r.x.max) &&
  decide (r.y.min ≤ p.py) && decide (p.py ≤ r.y.max)

/-- Box membership as the spec describes it: the end-effector position lies
within the region's box in all of x, y and z.  This is the spec-side
predicate used to state the claims; compare `posInBoxXY`, which is what the
source actually computes. -/
def specPosInBox (r : WorkspaceGoalRegion) (p : EEPose) : Bool :=
  posInBoxXY r p && decide (r.z.min ≤ p.pz) && decide (p.pz ≤ r.z.max)

/-- The `roll.free_value && pitch.free_value && yaw.free_value` test of
`distanceGoal` (source lines 160-161). -/
def allOrientationFree (r : WorkspaceGoalRegion) : Bool :=
  r.roll.free_value && r.pitch.free_value && r.yaw.free_value

/-- The fixed-axis orientation test of `distanceGoal` (source lines 185-191):
`meet_orientation_const` starts `true` and is cleared for every axis that is
not free and whose constraint/pose angle difference exceeds 0.02 rad. -/
def meetOrientationConst (r : WorkspaceGoalRegion) (c : OrientRPY) (p : EEPose) : Bool :=
  !(!r.roll.free_value && decide (|c.roll - p.roll| > epsOrient)) &&
  !(!r.pitch.free_value && decide (|c.pitch - p.pitch| > epsOrient)) &&
  !(!r.yaw.free_value && decide (|c.yaw - p.yaw| > epsOrient))

/-- One iteration of the region loop of `distanceGoal` (source lines
153-198): the region reports the state as inside (and `distanceGoal` returns
0) iff the x/y position test passes and either all three orientation axes are
free or every fixed axis is within 0.02 rad of the constraint
orientation. -/
def regionReportsInside (r : WorkspaceGoalRegion) (c : ConstraintMsg) (p : EEPose) : Bool :=
  posInBoxXY r p && (allOrientationFree r || meetOrientationConst r c.orient p)

/-- `GoalRegionSampler::distanceGoal` (source lines 142-202).  The forward
kinematics solve is external, so the function takes the resulting
end-effector pose `p` directly.  `regions` pairs each workspace goal region
with its `constrs_` entry, and `fallback` is the value of the base-class call
`ompl::base::WeightedGoalRegionSampler::distanceGoal(st)` (source line 201),
which is code outside this repository. -/
def distanceGoal : List (WorkspaceGoalRegion × ConstraintMsg) → EEPose → ℚ → ℚ
  | [], _, fallback => fallback
  | (r, c) :: rest, p, fallback =>
      if regionReportsInside r c p then 0 else distanceGoal rest p fallback

/-- If the x/y/z box test of the spec passes then so does the x/y test the
source performs. -/
theorem posInBoxXY_of_specPosInBox {r : WorkspaceGoalRegion} {p : EEPose}
    (h : specPosInBox r p = true) : posInBoxXY r p = true := by
  simp only [specPosInBox, Bool.and_eq_true] at h
  exact h.1.1

/-- If some region of the list reports the state inside, `distanceGoal`
returns 0. -/
theorem distanceGoal_eq_zero_of_mem
    {regions : List (WorkspaceGoalRegion × ConstraintMsg)} {p : EEPose} {fb : ℚ}
    {r : WorkspaceGoalRegion} {c : ConstraintMsg}
    (hmem : (r, c) ∈ regions)
    (hin : regionReportsInside r c p = true) :
    distanceGoal regions p fb = 0 := by
  induction regions with
  | nil => cases hmem
  | cons hd tl ih =>
      obtain ⟨r0, c0⟩ := hd
      rcases List.mem_cons.mp hmem with heq | htl
      · cases heq
        simp [distanceGoal, hin]
      · by_cases hb : regionReportsInside r0 c0 p = true
        · simp [distanceGoal, hb]
        · simp [distanceGoal, hb, ih htl]

/-- A concrete region: position box `[0,2]×[0,2]×[0,2]`, all three
orientation axes free. -/
def exRegionAllFree : WorkspaceGoalRegion :=
  { x := { min := 0, max := 2 }
    y := { min := 0, max := 2 }
    z := { min := 0, max := 2 }
    roll := { free_value := true }
    pitch := { free_value := true }
    yaw := { free_value := true } }

/-- A concrete constraint message (identity orientation at the box centre). -/
def exConstr : ConstraintMsg :=
  { pos_x := 1, pos_y := 1, pos_z := 1
    orient := { roll := 0, pitch := 0, yaw := 0 } }

/-- A concrete end-effector pose whose x and y lie inside the box of
`exRegionAllFree` but whose z coordinate (5) lies far outside its z bounds
`[0, 2]`. -/
def exPoseZOutside : EEPose :=
  { px := 1, py := 1, pz := 5, roll := 0, pitch := 0, yaw := 0 }

/-- C1: `distanceGoal` evaluated at the failing input.  The end-effector z
coordinate (5) is outside the region's z bounds `[0, 2]`, so per the claim
the configuration must not be reported inside and the fallback heuristic
(here 1) must be returned; the code checks only the x and y bounds, reports
the pose inside, and returns 0. -/
theorem distanceGoal_ignores_z :
    distanceGoal [(exRegionAllFree, exConstr)] exPoseZOutside 1 = 0 ∧
    specPosInBox exRegionAllFree exPoseZOutside = false ∧
    exPoseZOutside.pz > exRegionAllFree.z.max := by
  refine ⟨by decide, by decide, ?_⟩
  show (5 : ℚ) > 2
  norm_num

/-- C4: any configuration whose end-effector pose lies inside some region's
box (in all of x, y and z) with all three orientation axes of that region
free gets `distanceGoal` = 0. -/
theorem distanceGoal_inside_all_free
    (regions : List (WorkspaceGoalRegion × ConstraintMsg)) (p : EEPose) (fb : ℚ)
    (r : WorkspaceGoalRegion) (c : ConstraintMsg)
    (hmem : (r, c) ∈ regions)
    (hin : specPosInBox r p = true)
    (hfree : allOrientationFree r = true) :
    distanceGoal regions p fb = 0 := by
  refine distanceGoal_eq_zero_of_mem hmem ?_
  simp [regionReportsInside, posInBoxXY_of_specPosInBox hin, hfree]

/-- Witness for C4 at a concrete input: the pose `(1, 1, 1)` is inside
the all-free example region, and `distanceGoal` returns 0 on it. -/
theorem distanceGoal_inside_all_free_witness :
    ((exRegionAllFree, exConstr) ∈ [(exRegionAllFree, exConstr)] ∧
      specPosInBox exRegionAllFree
        { px := 1, py := 1, pz := 1, roll := 0, pitch := 0, yaw := 0 } = true ∧
      allOrientationFree exRegionAllFree = true) ∧
    distanceGoal [(exRegionAllFree, exConstr)]
      { px := 1, py := 1, pz := 1, roll := 0, pitch := 0, yaw := 0 } 7 = 0 :=
  ⟨⟨List.mem_singleton.mpr rfl, by decide, by decide⟩,
    distanceGoal_inside_all_free _ _ 7 exRegionAllFree exConstr
      (List.mem_singleton.mpr rfl) (by decide) (by decide)⟩

/-- C3: a region whose roll axis is fixed, whose constraint roll is 0 and
whose pose roll differs from it by 1/2 rad never reports the state inside
(1/2 > 0.02 fails the fixed-axis check), whatever the position; with that
region alone, `distanceGoal` returns the fallback heuristic. -/
theorem distanceGoal_roll_fixed_half_rad
    (r : WorkspaceGoalRegion) (c : ConstraintMsg) (p : EEPose) (fb : ℚ)
    (hfix : r.roll.free_value = false)
    (hzero : c.orient.roll = 0)
    (hdev : |p.roll - c.orient.roll| = 1/2)
    (hpos : specPosInBox r p = true) :
    regionReportsInside r c p = false ∧ distanceGoal [(r, c)] p fb = fb := by
  have hdiff : epsOrient < |c.orient.roll - p.roll| := by
    rw [abs_sub_comm, hdev, epsOrient]
    norm_num
  have hmeet : meetOrientationConst r c.orient p = false := by
    simp [meetOrientationConst, hfix, hdiff]
  have hfree : allOrientationFree r = false := by
    simp [allOrientationFree, hfix]
  have hreg : regionReportsInside r c p = false := by
    simp [regionReportsInside, hfree, hmeet]
  exact ⟨hreg, by simp [distanceGoal, hreg]⟩

/-- A concrete region identical to `exRegionAllFree` except that its roll
axis is fixed. -/
def exRegionRollFixed : WorkspaceGoalRegion :=
  { x := { min := 0, max := 2 }
    y := { min := 0, max := 2 }
    z := { min := 0, max := 2 }
    roll := { free_value := false }
    pitch := { free_value := true }
    yaw := { free_value := true } }

/-- A concrete end-effector pose at the centre of the example box whose roll
is 1/2 rad. -/
def exPoseRollHalf : EEPose :=
  { px := 1, py := 1, pz := 1, roll := 1/2, pitch := 0, yaw := 0 }

/-- Witness for C3 at a concrete input: roll fixed at 0, pose roll 1/2,
position at the box centre; the region check fails and `distanceGoal`
returns the fallback 3. -/
theorem distanceGoal_roll_fixed_half_rad_witness :
    ((exRegionRollFixed.roll.free_value = false ∧
        exConstr.orient.roll = 0 ∧
        |exPoseRollHalf.roll - exConstr.orient.roll| = 1/2 ∧
        specPosInBox exRegionRollFixed exPoseRollHalf = true) ∧
      regionReportsInside exRegionRollFixed exConstr exPoseRollHalf = false) ∧
    distanceGoal [(exRegionRollFixed, exConstr)] exPoseRollHalf 3 = 3 :=
  ⟨⟨⟨by decide, by decide,
      by norm_num [exPoseRollHalf, exConstr],
      by norm_num [specPosInBox, posInBoxXY, exRegionRollFixed, exPoseRollHalf]⟩,
      (distanceGoal_roll_fixed_half_rad exRegionRollFixed exConstr exPoseRollHalf 3
        (by decide) (by decide) (by norm_num [exPoseRollHalf, exConstr])
        (by norm_num [specPosInBox, posInBoxXY, exRegionRollFixed, exPoseRollHalf])).1⟩,
    (distanceGoal_roll_fixed_half_rad exRegionRollFixed exConstr exPoseRollHalf 3
      (by decide) (by decide) (by norm_num [exPoseRollHalf, exConstr])
      (by norm_num [specPosInBox, posInBoxXY, exRegionRollFixed, exPoseRollHalf])).2⟩

/-
`GoalRegionSampler::getBetterSolution` (source lines 217-324).  The roadmap
graph, its `stateProperty_`, `sameComponent` and `constructSolution` belong
to the external PRM planner, so they enter the embedding as data: a vertex
list in `boost::vertices` iteration order carrying each vertex's state and
its end-effector position (the forward-kinematics solve of lines 238-246 is
external), a same-component relation, and an internal-path constructor.

The source stores `sqrt(Σ (centroid - ee)²)` for each vertex (lines
256-262).  Square roots leave `ℚ`, and `sqrt` is strictly monotone on
nonnegative inputs, so the embedding stores the radicand: the comparison
`gr_distance < distance` of line 264 and the ascending `lst.sort()` of line
286 order the radicands exactly as they order the square roots.
-/

/-- A roadmap vertex: its configuration (`stateProperty_[v]`) and the
end-effector position its forward kinematics yields (lines 238-246). -/
structure RoadmapVertex where
  state : List ℚ
  eeX : ℚ
  eeY : ℚ
  eeZ : ℚ
deriving DecidableEq

/-- The squared distance from a vertex's end-effector position to the
centroid of a region's position box (the radicand of lines 256-262). -/
def grCentroidDistSq (r : WorkspaceGoalRegion) (v : RoadmapVertex) : ℚ :=
  ((r.x.max + r.x.min) / 2 - v.eeX) ^ 2 +
  ((r.y.max + r.y.min) / 2 - v.eeY) ^ 2 +
  ((r.z.max + r.z.min) / 2 - v.eeZ) ^ 2

/-- The per-vertex score (lines 253-266): `distance` starts at infinity
(`none`) and is lowered to the smallest region distance. -/
def minRegionDist (regions : List WorkspaceGoalRegion) (v : RoadmapVertex) : Option ℚ :=
  regions.foldl
    (fun acc r =>
      let d := grCentroidDistSq r v
      match acc with
      | none => some d
      | some best => if d < best then some d else some best)
    none

/-- The `BOOST_FOREACH` loop of lines 233-282: each vertex is scored and
appended to `lst`, and the loop `break`s as soon as it meets the vertex whose
state equals the solution path's terminal state (`equalStates`, line 272).
Returns the accumulated `lst` and the found start vertex, if any. -/
def scanVertices (regions : List WorkspaceGoalRegion) (terminal : List ℚ) :
    List RoadmapVertex → ℕ → List (Option ℚ × ℕ) × Option ℕ
  | [], _ => ([], none)
  | v :: rest, idx =>
      let d := minRegionDist regions v
      if v.state = terminal then ([(d, idx)], some idx)
      else
        let res := scanVertices regions terminal rest (idx + 1)
        ((d, idx) :: res.1, res.2)

/-- The `operator<` of `std::tuple<double, Vertex>` used by `lst.sort()`
(line 286): lexicographic, with `none` playing infinity. -/
def scoreLE : Option ℚ × ℕ → Option ℚ × ℕ → Bool
  | (none, i), (none, j) => decide (i ≤ j)
  | (none, _), (some _, _) => false
  | (some _, _), (none, _) => true
  | (some a, i), (some b, j) => decide (a < b) || (decide (a = b) && decide (i ≤ j))

/-- Stable insertion into a list sorted by `scoreLE`. -/
def sortInsert (x : Option ℚ × ℕ) : List (Option ℚ × ℕ) → List (Option ℚ × ℕ)
  | [] => [x]
  | y :: ys => if scoreLE x y then x :: y :: ys else y :: sortInsert x ys

/-- `lst.sort()` (line 286): ascending stable sort by `scoreLE`. -/
def sortScores : List (Option ℚ × ℕ) → List (Option ℚ × ℕ)
  | [] => []
  | x :: xs => sortInsert x (sortScores xs)

/-- The selection loop of lines 289-309: walk the sorted list and `break` at
the first element in the same connected component as the start vertex. -/
def firstSameComponent (sameComp : ℕ → ℕ → Bool) (start : ℕ) :
    List (Option ℚ × ℕ) → Option ℕ
  | [] => none
  | e :: rest =>
      if sameComp start e.2 then some e.2 else firstSameComponent sameComp start rest

/-- The inputs `getBetterSolution` draws from the PRM planner and the
solution path: the roadmap vertices in iteration order, the goal regions,
the connectivity relation, the terminal state of the solution path, and
`constructSolution` as an abstract path builder. -/
structure RefineInput where
  vertices : List RoadmapVertex
  regions : List WorkspaceGoalRegion
  sameComponent : ℕ → ℕ → Bool
  terminal : List ℚ
  internalPath : ℕ → ℕ → List (List ℚ)

/-- `stateProperty_[v]` for a vertex index. -/
def stateAt (inp : RefineInput) (i : ℕ) : List ℚ :=
  ((inp.vertices.get? i).map RoadmapVertex.state).getD []

/-- The vertex whose internal path is spliced onto the solution, if any:
the first same-component element of the sorted list, provided its state
differs from the start vertex's state (lines 289-309). -/
def spliceTarget (inp : RefineInput) : Option ℕ :=
  match scanVertices inp.regions inp.terminal inp.vertices 0 with
  | (_, none) => none
  | (lst, some sv) =>
      match firstSameComponent inp.sameComponent sv (sortScores lst) with
      | none => none
      | some gv => if stateAt inp gv = stateAt inp sv then none else some gv

/-- `GoalRegionSampler::getBetterSolution` (lines 217-324) as a function on
the solution path's state sequence: when a splice target exists, every state
of the internal path after the first is appended to the solution path
(lines 311-322). -/
def getBetterSolution (inp : RefineInput) (solution : List (List ℚ)) : List (List ℚ) :=
  match scanVertices inp.regions inp.terminal inp.vertices 0 with
  | (_, none) => solution
  | (lst, some sv) =>
      match firstSameComponent inp.sameComponent sv (sortScores lst) with
      | none => solution
      | some gv =>
          if stateAt inp gv = stateAt inp sv then solution
          else solution ++ (inp.internalPath sv gv).drop 1

/-- A goal region with box `[-1,1]×[-1,1]×[-1,1]` (centroid at the origin),
all orientation axes free. -/
def exRoadmapRegion : WorkspaceGoalRegion :=
  { x := { min := -1, max := 1 }
    y := { min := -1, max := 1 }
    z := { min := -1, max := 1 }
    roll := { free_value := true }
    pitch := { free_value := true }
    yaw := { free_value := true } }

/-- Vertex A of the spec's refinement scenario: the terminal vertex, squared
centroid distance 25. -/
def vA : RoadmapVertex := { state := [10], eeX := 5, eeY := 0, eeZ := 0 }

/-- Vertex B of the spec's refinement scenario: same component as A, squared
centroid distance 9. -/
def vB : RoadmapVertex := { state := [20], eeX := 3, eeY := 0, eeZ := 0 }

/-- Vertex C of the spec's refinement scenario: a different component from A,
squared centroid distance 1. -/
def vC : RoadmapVertex := { state := [30], eeX := 1, eeY := 0, eeZ := 0 }

/-- Connectivity for the iteration order `[A, B, C]`: indices 0 (A) and
1 (B) share a component; index 2 (C) is on its own. -/
def exSameCompAFirst : ℕ → ℕ → Bool := fun i j =>
  (decide (i ≤ 1) && decide (j ≤ 1)) || (decide (i = 2) && decide (j = 2))

/-- The spec's refinement scenario with the terminal vertex A first in
roadmap iteration order. -/
def exInpAFirst : RefineInput :=
  { vertices := [vA, vB, vC]
    regions := [exRoadmapRegion]
    sameComponent := exSameCompAFirst
    terminal := [10]
    internalPath := fun _ _ => [[10], [15], [20]] }

/-- Connectivity for the iteration order `[C, B, A]`: indices 1 (B) and
2 (A) share a component; index 0 (C) is on its own. -/
def exSameCompALast : ℕ → ℕ → Bool := fun i j =>
  (decide (1 ≤ i) && decide (1 ≤ j)) || (decide (i = 0) && decide (j = 0))

/-- The spec's refinement scenario with the terminal vertex A last in
roadmap iteration order. -/
def exInpALast : RefineInput :=
  { vertices := [vC, vB, vA]
    regions := [exRoadmapRegion]
    sameComponent := exSameCompALast
    terminal := [10]
    internalPath := fun _ _ => [[10], [15], [20]] }

/-- C2, counterexample: in the spec's A/B/C scenario with the terminal
vertex A first in iteration order, the scan stops at A, so only one of the
three roadmap vertices receives a score, and no splice target is selected —
the claim demands that all three vertices be scored and that B (index 1) be
chosen. -/
theorem getBetterSolution_scans_only_until_terminal :
    exInpAFirst.vertices.length = 3 ∧
    (scanVertices exInpAFirst.regions exInpAFirst.terminal exInpAFirst.vertices 0).1.length = 1 ∧
    spliceTarget exInpAFirst = none ∧
    getBetterSolution exInpAFirst [[0], [10]] = [[0], [10]] := by
  refine ⟨rfl, ?_, ?_, ?_⟩
  · simp [scanVertices, exInpAFirst, vA]
  · simp [spliceTarget, scanVertices, exInpAFirst, vA, sortScores, sortInsert,
      firstSameComponent, exSameCompAFirst, stateAt]
  · simp [getBetterSolution, scanVertices, exInpAFirst, vA, sortScores, sortInsert,
      firstSameComponent, exSameCompAFirst, stateAt]

/-- C2, amended: the scan scores vertices only up to and including the first
vertex whose state equals the terminal state (the `break` of line 280), the
splice candidate is chosen from that sorted prefix, and a splice happens only
when the candidate differs from the start vertex.  In the spec's A/B/C
scenario this selects B only when B precedes A in iteration order: with A
scanned first nothing is selected, with A scanned last B (index 1) is
selected and its internal path is appended. -/
theorem getBetterSolution_selects_from_scanned_list :
    (∀ (regions : List WorkspaceGoalRegion) (terminal : List ℚ)
        (vs : List RoadmapVertex) (idx : ℕ),
        (scanVertices regions terminal vs idx).1.length =
          min vs.length
            ((vs.takeWhile (fun v => !decide (v.state = terminal))).length + 1)) ∧
    spliceTarget exInpAFirst = none ∧
    spliceTarget exInpALast = some 1 ∧
    getBetterSolution exInpALast [[0], [10]] = [[0], [10], [15], [20]] := by
  refine ⟨?_, ?_, ?_, ?_⟩
  · intro regions terminal vs
    induction vs with
    | nil => intro idx; simp [scanVertices]
    | cons v rest ih =>
        intro idx
        by_cases hv : v.state = terminal
        · simp [scanVertices, hv, List.takeWhile_cons, Nat.min_def]
        · have := ih (idx + 1)
          simp [scanVertices, hv, List.takeWhile_cons, this]
          omega
  · simp [spliceTarget, scanVertices, exInpAFirst, vA, sortScores, sortInsert,
      firstSameComponent, exSameCompAFirst, stateAt]
  · norm_num [spliceTarget, scanVertices, exInpALast, vA, vB, vC, exRoadmapRegion,
      minRegionDist, grCentroidDistSq, sortScores, sortInsert, scoreLE,
      firstSameComponent, exSameCompALast, stateAt]
  · norm_num [getBetterSolution, scanVertices, exInpALast, vA, vB, vC, exRoadmapRegion,
      minRegionDist, grCentroidDistSq, sortScores, sortInsert, scoreLE,
      firstSameComponent, exSameCompALast, stateAt]

/-
`GoalRegionSampler::sampleUsingConstraintSampler` (source lines 345-515) and
`GoalRegionSampler::clear` (lines 517-525).

The mutable members the function touches are gathered in `SamplerState`.
External collaborators are oracles supplied per region index: the SE3 pose
sampler (`se3_samplers_[i]->sampleUniform`, with roll/pitch/yaw extracted by
`getRPY`), `hasSolution()` of the problem definition,
`gls->samplingAttemptsCount()`, whether `selectSampler` found a constraint
sampler, and — per attempt index of the region's loop, since these calls are
re-issued each iteration — `gls->isSampling()`, `gls->getStateCount()`, the
outcome of `constraint_sampler_->project`, of
`kinematic_constraint_set_->decide(...).satisfied`, and of the validity
check.

Queue entries are recorded by weight (every insertion is a `WeightedGoal`
with `weight_ = 1.0`); the `sampled_states` output vector is recorded by its
length.  The call log (`verboseLog`, `attemptsLog`, `warningsRaised`) exposes
the verbose flags handed to the validity callback, the executed attempt
indices, and the number of times the one-time invalid-samples warning
fires.
-/

/-- `max_attempts` of `sampleUsingConstraintSampler` (source line 413). -/
def max_attempts : ℕ := 2

/-- `max_attempts_div2` (source line 431). -/
def max_attempts_div2 : ℕ := max_attempts / 2

/-- The mutable members of `GoalRegionSampler` that
`sampleUsingConstraintSampler` and `clear` read or write. -/
structure SamplerState where
  invalid_sampled_constraints : ℕ
  warned_invalid_samples : Bool
  verbose_display : ℕ
  goals_priority_queue : List ℚ
  workspace_goal_regions : List WorkspaceGoalRegion
  constrs : List ConstraintMsg
  se3_samplers : List Unit
  se3_spaces : List Unit
deriving DecidableEq

/-- The external calls one region iteration of
`sampleUsingConstraintSampler` makes, as data.  The per-attempt fields are
indexed by the attempt counter `a` of the region's inner loop. -/
structure RegionOracle where
  sampledPose : EEPose
  hasSolution : Bool
  attempts_so_far : ℕ
  hasConstraintSampler : Bool
  isSampling : ℕ → Bool
  stateCount : ℕ → ℕ
  projectOk : ℕ → Bool
  decideOk : ℕ → Bool
  validOk : ℕ → Bool

/-- The evolving state of one `sampleUsingConstraintSampler` call: the
sampler members, the length of the `sampled_states` output vector, the
`success` flag, and the observation logs. -/
structure CallState where
  s : SamplerState
  sampled_states : ℕ
  success : Bool
  verboseLog : List (ℕ × ℕ × Bool)
  attemptsLog : List (ℕ × ℕ)
  warningsRaised : ℕ
deriving DecidableEq

/-- The state a call starts from (source line 348: `success = false`; the
output vector starts empty). -/
def initCall (s : SamplerState) : CallState :=
  { s := s
    sampled_states := 0
    success := false
    verboseLog := []
    attemptsLog := []
    warningsRaised := 0 }

/-- The verbose computation of source lines 434-440: verbose is raised iff
the sampler still has no accepted state, the attempt index has reached
`max_attempts_div2`, and `verbose_display_` is still below 1 (in which case
`verbose_display_` is incremented). -/
def verboseFlag (o : RegionOracle) (a : ℕ) (cs : CallState) : Bool :=
  (o.stateCount a == 0) && decide (max_attempts_div2 ≤ a) &&
    decide (cs.s.verbose_display < 1)

/-- How one iteration of the attempt loop ends. -/
inductive AttemptOutcome
  | acceptedConstrained
  | acceptedFallback
  | rejectedConstraint
  | rejectedOther
deriving DecidableEq

/-- The branch structure of source lines 442-507.  With a constraint sampler
(line 442): projection failure (line 456) or a failed validity check (line
461) are plain rejections, a failed `decide` (line 459) is a constraint
rejection (counted, lines 475-485), and passing all three accepts via the
constrained path (lines 463-472).  Without a constraint sampler (line 488):
validity check (line 491) then `decide` (line 494), accepting via the
fallback path (lines 496-504). -/
def attemptOutcome (o : RegionOracle) (a : ℕ) : AttemptOutcome :=
  if o.hasConstraintSampler then
    if o.projectOk a then
      if o.decideOk a then
        if o.validOk a then .acceptedConstrained else .rejectedOther
      else .rejectedConstraint
    else .rejectedOther
  else
    if o.validOk a then
      if o.decideOk a then .acceptedFallback else .rejectedOther
    else .rejectedOther

/-- One iteration of the attempt loop body (source lines 434-507), returning
the new state and whether the loop `break`s.  The constrained acceptance
pushes the cloned goal onto `sampled_states` and inserts it into the queue
with weight 1 (lines 463-472); the fallback acceptance only inserts into the
queue (lines 496-504); a constraint rejection increments
`invalid_sampled_constraints_` and fires the one-time warning when the count
reaches `(attempts_so_far * 8) / 10` with the flag still unset (lines
475-485). -/
def attemptBody (i : ℕ) (o : RegionOracle) (a : ℕ) (cs : CallState) : CallState × Bool :=
  let verbose := verboseFlag o a cs
  let cs1 : CallState :=
    { cs with
      s := { cs.s with verbose_display :=
               if verbose then cs.s.verbose_display + 1 else cs.s.verbose_display }
      verboseLog := cs.verboseLog ++ [(i, a, verbose)] }
  match attemptOutcome o a with
  | .acceptedConstrained =>
      ({ cs1 with
         s := { cs1.s with goals_priority_queue := cs1.s.goals_priority_queue ++ [1] }
         sampled_states := cs1.sampled_states + 1
         success := true }, true)
  | .acceptedFallback =>
      ({ cs1 with
         s := { cs1.s with goals_priority_queue := cs1.s.goals_priority_queue ++ [1] }
         success := true }, true)
  | .rejectedConstraint =>
      let inv := cs1.s.invalid_sampled_constraints + 1
      let fire := !cs1.s.warned_invalid_samples && decide (o.attempts_so_far * 8 / 10 ≤ inv)
      ({ cs1 with
         s := { cs1.s with
                invalid_sampled_constraints := inv
                warned_invalid_samples := cs1.s.warned_invalid_samples || fire }
         warningsRaised := cs1.warningsRaised + if fire then 1 else 0 }, false)
  | .rejectedOther => (cs1, false)

/-- The attempt loop `for (a = 0; a < max_attempts && gls->isSampling(); ++a)`
(source line 432): `fuel` is the number of attempts still admitted by
`a < max_attempts`, and `isSampling` is consulted before every iteration.
Each executed attempt is recorded in `attemptsLog`. -/
def attemptLoop (i : ℕ) (o : RegionOracle) : ℕ → ℕ → CallState → CallState
  | 0, _, cs => cs
  | fuel + 1, a, cs =>
      if o.isSampling a then
        let cs1 : CallState := { cs with attemptsLog := cs.attemptsLog ++ [(i, a)] }
        let r := attemptBody i o a cs1
        if r.2 then r.1 else attemptLoop i o fuel (a + 1) r.1
      else cs

/-- The `constrs_[i]` update of source lines 362-400: the position constraint
takes the sampled position, and when at least one orientation axis is free
the orientation constraint is rebuilt with the sampled value on free axes
and the previous value on fixed axes (the source composes this through
roll/pitch/yaw, lines 372-399; the quaternion round trip is the external
`tf` library). -/
def updateConstraint (r : WorkspaceGoalRegion) (c : ConstraintMsg) (sample : EEPose) :
    ConstraintMsg :=
  let c1 : ConstraintMsg :=
    { c with pos_x := sample.px, pos_y := sample.py, pos_z := sample.pz }
  if r.roll.free_value || r.pitch.free_value || r.yaw.free_value then
    { c1 with orient :=
        { roll := if r.roll.free_value then sample.roll else c.orient.roll
          pitch := if r.pitch.free_value then sample.pitch else c.orient.pitch
          yaw := if r.yaw.free_value then sample.yaw else c.orient.yaw } }
  else c1

/-- `constrs_[i] = ...` as a total list update. -/
def updateConstraintAt (cs : List ConstraintMsg) (i : ℕ) (r : WorkspaceGoalRegion)
    (sample : EEPose) : List ConstraintMsg :=
  match cs.get? i with
  | none => cs
  | some c => cs.set i (updateConstraint r c sample)

/-- One iteration of the region loop (source lines 350-510): refresh the
region's constraint from the sampled pose, `continue` when the problem
already has a solution (line 427), otherwise run the attempt loop from
`a = 0`. -/
def regionBody (i : ℕ) (o : RegionOracle) (r : WorkspaceGoalRegion) (cs : CallState) :
    CallState :=
  let cs1 : CallState :=
    { cs with s := { cs.s with
        constrs := updateConstraintAt cs.s.constrs i r o.sampledPose } }
  if o.hasSolution then cs1
  else attemptLoop i o max_attempts 0 cs1

/-- The region loop of `sampleUsingConstraintSampler` (source line 350). -/
def runRegions (oracle : ℕ → RegionOracle) :
    List WorkspaceGoalRegion → ℕ → CallState → CallState
  | [], _, cs => cs
  | r :: rest, i, cs => runRegions oracle rest (i + 1) (regionBody i (oracle i) r cs)

/-- `GoalRegionSampler::sampleUsingConstraintSampler` (source lines 345-515):
iterate over all workspace goal regions and return the final call state,
whose `success` field is the function's return value (lines 511-514). -/
def sampleUsingConstraintSampler (oracle : ℕ → RegionOracle) (s : SamplerState) :
    CallState :=
  runRegions oracle s.workspace_goal_regions 0 (initCall s)

/-- Model of `GoalRegionSampler::clear` (source lines 517-525).  The call to
the base-class `WeightedGoalRegionSampler::clear()` (line 520) is code
outside this repository; Modelled from the spec: "`clear()` empties
WeightedGoalQueue, all region state, and all sampler state" — the embedding
empties the weighted-goal priority queue.  The four remaining `.clear()`
calls (lines 521-524) empty the members of this class.  Note that the
invalid-samples counter, the warned flag and `verbose_display_` are not
reset. -/
def clear (s : SamplerState) : SamplerState :=
  { s with
    goals_priority_queue := []
    constrs := []
    workspace_goal_regions := []
    se3_samplers := []
    se3_spaces := [] }

/-- Aggregate counts over a sequence of `sampleUsingConstraintSampler` calls
on the same sampler instance. -/
structure LifetimeCount where
  finalState : SamplerState
  verboseTrues : ℕ
  warningEvents : ℕ

/-- A whole sampler lifetime: run one `sampleUsingConstraintSampler` call
per oracle, threading the sampler state, and accumulate how many verbose
flags were raised and how many times the invalid-samples warning fired. -/
def runLifetime : List (ℕ → RegionOracle) → SamplerState → LifetimeCount
  | [], s => { finalState := s, verboseTrues := 0, warningEvents := 0 }
  | o :: os, s =>
      let r := sampleUsingConstraintSampler o s
      let rest := runLifetime os r.s
      { finalState := rest.finalState
        verboseTrues := (r.verboseLog.filter (fun e => e.2.2)).length + rest.verboseTrues
        warningEvents := r.warningsRaised + rest.warningEvents }

/-- C6: after `clear()` the weighted-goal priority queue, the workspace goal
region list, the per-region constraint list, and the per-region SE3 sampler
and state-space lists are all empty, and a subsequent
`sampleUsingConstraintSampler` call iterates over no regions: whatever the
oracles say, it returns exactly the freshly initialised call state of the
cleared sampler (so it reads no pre-clear region or constraint state) with
`success = false`. -/
theorem clear_empties_and_next_generate_reads_nothing
    (s : SamplerState) (oracle : ℕ → RegionOracle) :
    (clear s).goals_priority_queue = [] ∧
    (clear s).workspace_goal_regions = [] ∧
    (clear s).constrs = [] ∧
    (clear s).se3_samplers = [] ∧
    (clear s).se3_spaces = [] ∧
    sampleUsingConstraintSampler oracle (clear s) = initCall (clear s) ∧
    (sampleUsingConstraintSampler oracle (clear s)).success = false := by
  refine ⟨rfl, rfl, rfl, rfl, rfl, ?_, ?_⟩ <;>
    simp [sampleUsingConstraintSampler, clear, runRegions, initCall]

/-- C10: the two acceptance paths of the attempt body.  Through the
unconstrained fallback (no constraint sampler), an accepted candidate is
inserted into the priority queue with weight 1 but `sampled_states` does not
grow; through the constrained path, the candidate is both appended to
`sampled_states` and inserted into the queue with weight 1. -/
theorem accepted_goal_queue_vs_sampled_states
    (i : ℕ) (o : RegionOracle) (a : ℕ) (cs : CallState) :
    (o.hasConstraintSampler = false → o.validOk a = true → o.decideOk a = true →
      (attemptBody i o a cs).1.s.goals_priority_queue = cs.s.goals_priority_queue ++ [1] ∧
      (attemptBody i o a cs).1.sampled_states = cs.sampled_states) ∧
    (o.hasConstraintSampler = true → o.projectOk a = true → o.decideOk a = true →
      o.validOk a = true →
      (attemptBody i o a cs).1.s.goals_priority_queue = cs.s.goals_priority_queue ++ [1] ∧
      (attemptBody i o a cs).1.sampled_states = cs.sampled_states + 1) := by
  constructor
  · intro h1 h2 h3
    have hout : attemptOutcome o a = .acceptedFallback := by
      simp [attemptOutcome, h1, h2, h3]
    constructor <;> simp [attemptBody, hout]
  · intro h1 h2 h3 h4
    have hout : attemptOutcome o a = .acceptedConstrained := by
      simp [attemptOutcome, h1, h2, h3, h4]
    constructor <;> simp [attemptBody, hout]

/-- A sampled pose for concrete oracles. -/
def exSample : EEPose := { px := 0, py := 0, pz := 0, roll := 0, pitch := 0, yaw := 0 }

/-- A concrete sampler state with one all-free region. -/
def exState : SamplerState :=
  { invalid_sampled_constraints := 0
    warned_invalid_samples := false
    verbose_display := 0
    goals_priority_queue := []
    workspace_goal_regions := [exRegionAllFree]
    constrs := [exConstr]
    se3_samplers := [()]
    se3_spaces := [()] }

/-- A region oracle whose projection, constraint check and validity check
all succeed, with no constraint sampler resolvable. -/
def oFallbackAccept : RegionOracle :=
  { sampledPose := exSample
    hasSolution := false
    attempts_so_far := 0
    hasConstraintSampler := false
    isSampling := fun _ => true
    stateCount := fun _ => 0
    projectOk := fun _ => true
    decideOk := fun _ => true
    validOk := fun _ => true }

/-- A region oracle whose projection, constraint check and validity check
all succeed, with a constraint sampler available. -/
def oConstrainedAccept : RegionOracle :=
  { oFallbackAccept with hasConstraintSampler := true }

/-- Witness for C10: both acceptance paths evaluated from the concrete
initial call state; the fallback path grows only the queue, the constrained
path grows both the queue and `sampled_states`. -/
theorem accepted_goal_queue_vs_sampled_states_witness :
    ((attemptBody 0 oFallbackAccept 0 (initCall exState)).1.s.goals_priority_queue =
        (initCall exState).s.goals_priority_queue ++ [1] ∧
      (attemptBody 0 oFallbackAccept 0 (initCall exState)).1.sampled_states =
        (initCall exState).sampled_states) ∧
    ((attemptBody 0 oConstrainedAccept 0 (initCall exState)).1.s.goals_priority_queue =
        (initCall exState).s.goals_priority_queue ++ [1] ∧
      (attemptBody 0 oConstrainedAccept 0 (initCall exState)).1.sampled_states =
        (initCall exState).sampled_states + 1) :=
  ⟨(accepted_goal_queue_vs_sampled_states 0 oFallbackAccept 0 (initCall exState)).1
      rfl rfl rfl,
    (accepted_goal_queue_vs_sampled_states 0 oConstrainedAccept 0 (initCall exState)).2
      rfl rfl rfl rfl⟩

/-- The attempt body never touches the executed-attempts log. -/
theorem attemptBody_attemptsLog (i : ℕ) (o : RegionOracle) (a : ℕ) (cs : CallState) :
    (attemptBody i o a cs).1.attemptsLog = cs.attemptsLog := by
  cases h : attemptOutcome o a <;> simp [attemptBody, h]

/-- The attempt loop starting at attempt `a` with `fuel` admitted iterations
appends at most `fuel` entries to the attempts log, all for region `i`, with
indices in `[a, a + fuel)`, and only while every `isSampling` check up to
that attempt (including the checks before `a`, recorded in the hypothesis)
returned true. -/
theorem attemptLoop_attempts_spec (i : ℕ) (o : RegionOracle) :
    ∀ (fuel a : ℕ) (cs : CallState),
      (∀ b, b < a → o.isSampling b = true) →
      ∃ new : List (ℕ × ℕ),
        (attemptLoop i o fuel a cs).attemptsLog = cs.attemptsLog ++ new ∧
        new.length ≤ fuel ∧
        ∀ p ∈ new, p.1 = i ∧ a ≤ p.2 ∧ p.2 < a + fuel ∧
          ∀ b, b ≤ p.2 → o.isSampling b = true := by
  intro fuel
  induction fuel with
  | zero =>
      intro a cs h
      exact ⟨[], by simp [attemptLoop], by simp, by simp⟩
  | succ fuel ih =>
      intro a cs h
      by_cases hs : o.isSampling a = true
      · have hlog1 :
            (attemptBody i o a { cs with attemptsLog := cs.attemptsLog ++ [(i, a)] }).1.attemptsLog
              = cs.attemptsLog ++ [(i, a)] :=
          attemptBody_attemptsLog i o a _
        by_cases hb :
            (attemptBody i o a { cs with attemptsLog := cs.attemptsLog ++ [(i, a)] }).2 = true
        · refine ⟨[(i, a)], ?_, by simp, ?_⟩
          · simp only [attemptLoop, hs, if_true, hb, hlog1]
          · intro p hp
            rcases List.mem_singleton.mp hp with rfl
            refine ⟨rfl, le_refl a, by omega, ?_⟩
            intro b hba
            rcases Nat.lt_or_ge b a with hlt | hge
            · exact h b hlt
            · have : b = a := le_antisymm hba hge
              exact this ▸ hs
        · have h1 : ∀ b, b < a + 1 → o.isSampling b = true := by
            intro b hb1
            rcases Nat.lt_or_ge b a with hlt | hge
            · exact h b hlt
            · have : b = a := by omega
              exact this ▸ hs
          obtain ⟨new, hlog, hlen, hprop⟩ :=
            ih (a + 1) (attemptBody i o a { cs with attemptsLog := cs.attemptsLog ++ [(i, a)] }).1 h1
          refine ⟨(i, a) :: new, ?_, by simpa using Nat.succ_le_succ hlen, ?_⟩
          · rw [Bool.not_eq_true] at hb
            simp only [attemptLoop, hs, if_true, hb, Bool.false_eq_true, if_false]
            rw [hlog, hlog1]
            simp
          · intro p hp
            rcases List.mem_cons.mp hp with rfl | hmem
            · refine ⟨rfl, le_refl a, by omega, ?_⟩
              intro b hba
              rcases Nat.lt_or_ge b a with hlt | hge
              · exact h b hlt
              · have : b = a := le_antisymm hba hge
                exact this ▸ hs
            · obtain ⟨hp1, hp2, hp3, hp4⟩ := hprop p hmem
              exact ⟨hp1, by omega, by omega, hp4⟩
      · refine ⟨[], ?_, by simp, by simp⟩
        simp only [attemptLoop, hs, if_false]
        simp

/-- The whole-call attempts-log bound, by induction over the region loop. -/
theorem runRegions_attempts_bound (oracle : ℕ → RegionOracle) :
    ∀ (rs : List WorkspaceGoalRegion) (i : ℕ) (cs : CallState),
      (runRegions oracle rs i cs).attemptsLog.length ≤
        cs.attemptsLog.length + rs.length * max_attempts := by
  intro rs
  induction rs with
  | nil => intro i cs; simp [runRegions]
  | cons r rest ih =>
      intro i cs
      have hbody : (regionBody i (oracle i) r cs).attemptsLog.length ≤
          cs.attemptsLog.length + max_attempts := by
        unfold regionBody
        by_cases hsol : (oracle i).hasSolution = true
        · simp [hsol]
        · simp only [hsol, Bool.false_eq_true, if_false]
          obtain ⟨new, hlog, hlen, _⟩ :=
            attemptLoop_attempts_spec i (oracle i) max_attempts 0 _ (by omega)
          rw [hlog]
          simp only [List.length_append]
          omega
      calc (runRegions oracle (r :: rest) i cs).attemptsLog.length
          = (runRegions oracle rest (i + 1) (regionBody i (oracle i) r cs)).attemptsLog.length := by
            simp [runRegions]
        _ ≤ (regionBody i (oracle i) r cs).attemptsLog.length + rest.length * max_attempts :=
            ih (i + 1) _
        _ ≤ cs.attemptsLog.length + max_attempts + rest.length * max_attempts := by omega
        _ = cs.attemptsLog.length + (r :: rest).length * max_attempts := by
            simp [List.length_cons]
            ring

/-- C7: per region and per call, the projection attempt loop runs at most
`max_attempts` (= 2) iterations — every executed attempt of the region body
has index below `max_attempts`, at most `max_attempts` are executed, and an
attempt runs only if every `isSampling` check up to it returned true (the
loop stops at the first false check).  Consequently a whole
`sampleUsingConstraintSampler` call executes at most
`max_attempts · #regions` attempts. -/
theorem attempts_per_region_bounded
    (oracle : ℕ → RegionOracle) (s : SamplerState) (i : ℕ) (o : RegionOracle)
    (r : WorkspaceGoalRegion) (cs : CallState) :
    (∃ new : List (ℕ × ℕ),
      (regionBody i o r cs).attemptsLog = cs.attemptsLog ++ new ∧
      new.length ≤ max_attempts ∧
      ∀ p ∈ new, p.1 = i ∧ p.2 < max_attempts ∧
        ∀ b, b ≤ p.2 → o.isSampling b = true) ∧
    (sampleUsingConstraintSampler oracle s).attemptsLog.length ≤
      s.workspace_goal_regions.length * max_attempts := by
  constructor
  · unfold regionBody
    by_cases hsol : o.hasSolution = true
    · refine ⟨[], by simp [hsol], by simp, by simp⟩
    · simp only [hsol, Bool.false_eq_true, if_false]
      obtain ⟨new, hlog, hlen, hprop⟩ :=
        attemptLoop_attempts_spec i o max_attempts 0 _ (by omega)
      refine ⟨new, hlog, hlen, ?_⟩
      intro p hp
      obtain ⟨h1, _, h3, h4⟩ := hprop p hp
      exact ⟨h1, by omega, h4⟩
  · have := runRegions_attempts_bound oracle s.workspace_goal_regions 0 (initCall s)
    simpa [sampleUsingConstraintSampler, initCall] using this

/-- Relation between call states: the queue only grows, and success holds in
the later state iff it already held or a goal was inserted in between. -/
def QueueSpec (cs cs' : CallState) : Prop :=
  cs.s.goals_priority_queue.length ≤ cs'.s.goals_priority_queue.length ∧
  (cs'.success = true ↔
    (cs.success = true ∨
      cs.s.goals_priority_queue.length < cs'.s.goals_priority_queue.length))

/-- `QueueSpec` holds between states with equal queue and success fields. -/
theorem queueSpec_of_eq (cs cs' : CallState)
    (hq : cs'.s.goals_priority_queue = cs.s.goals_priority_queue)
    (hs : cs'.success = cs.success) : QueueSpec cs cs' := by
  refine ⟨by rw [hq], ?_⟩
  rw [hq, hs]
  simp

/-- `QueueSpec` composes. -/
theorem queueSpec_trans {a b c : CallState}
    (h1 : QueueSpec a b) (h2 : QueueSpec b c) : QueueSpec a c := by
  obtain ⟨l1, i1⟩ := h1
  obtain ⟨l2, i2⟩ := h2
  refine ⟨le_trans l1 l2, ?_⟩
  rw [i2, i1]
  constructor
  · rintro ((h | h) | h)
    · exact Or.inl h
    · right; omega
    · right; omega
  · rintro (h | h)
    · exact Or.inl (Or.inl h)
    · rcases Nat.lt_or_ge a.s.goals_priority_queue.length b.s.goals_priority_queue.length
        with hab | hab
      · exact Or.inl (Or.inr hab)
      · right; omega

/-- One attempt body respects `QueueSpec`: acceptances insert one goal and
set success, rejections change neither. -/
theorem attemptBody_queueSpec (i : ℕ) (o : RegionOracle) (a : ℕ) (cs : CallState) :
    QueueSpec cs (attemptBody i o a cs).1 := by
  cases h : attemptOutcome o a <;>
    simp [attemptBody, h, QueueSpec]

/-- The attempt loop respects `QueueSpec`. -/
theorem attemptLoop_queueSpec (i : ℕ) (o : RegionOracle) :
    ∀ (fuel a : ℕ) (cs : CallState), QueueSpec cs (attemptLoop i o fuel a cs) := by
  intro fuel
  induction fuel with
  | zero => intro a cs; exact queueSpec_of_eq cs cs rfl rfl
  | succ fuel ih =>
      intro a cs
      by_cases hs : o.isSampling a = true
      · have hstep : QueueSpec cs
            (attemptBody i o a { cs with attemptsLog := cs.attemptsLog ++ [(i, a)] }).1 :=
          queueSpec_trans
            (queueSpec_of_eq cs { cs with attemptsLog := cs.attemptsLog ++ [(i, a)] } rfl rfl)
            (attemptBody_queueSpec i o a { cs with attemptsLog := cs.attemptsLog ++ [(i, a)] })
        by_cases hb :
            (attemptBody i o a { cs with attemptsLog := cs.attemptsLog ++ [(i, a)] }).2 = true
        · simpa [attemptLoop, hs, hb] using hstep
        · rw [Bool.not_eq_true] at hb
          have := queueSpec_trans hstep (ih (a + 1)
            (attemptBody i o a { cs with attemptsLog := cs.attemptsLog ++ [(i, a)] }).1)
          simpa [attemptLoop, hs, hb] using this
      · rw [Bool.not_eq_true] at hs
        simpa [attemptLoop, hs] using queueSpec_of_eq cs cs rfl rfl

/-- One region iteration respects `QueueSpec`. -/
theorem regionBody_queueSpec (i : ℕ) (o : RegionOracle) (r : WorkspaceGoalRegion)
    (cs : CallState) : QueueSpec cs (regionBody i o r cs) := by
  unfold regionBody
  by_cases hsol : o.hasSolution = true
  · simpa [hsol] using queueSpec_of_eq cs
      { cs with s := { cs.s with
          constrs := updateConstraintAt cs.s.constrs i r o.sampledPose } } rfl rfl
  · rw [Bool.not_eq_true] at hsol
    simp only [hsol, Bool.false_eq_true, if_false]
    exact queueSpec_trans
      (queueSpec_of_eq cs
        { cs with s := { cs.s with
            constrs := updateConstraintAt cs.s.constrs i r o.sampledPose } } rfl rfl)
      (attemptLoop_queueSpec i o max_attempts 0
        { cs with s := { cs.s with
            constrs := updateConstraintAt cs.s.constrs i r o.sampledPose } })

/-- The region loop respects `QueueSpec`. -/
theorem runRegions_queueSpec (oracle : ℕ → RegionOracle) :
    ∀ (rs : List WorkspaceGoalRegion) (i : ℕ) (cs : CallState),
      QueueSpec cs (runRegions oracle rs i cs) := by
  intro rs
  induction rs with
  | nil => intro i cs; exact queueSpec_of_eq cs cs rfl rfl
  | cons r rest ih =>
      intro i cs
      exact queueSpec_trans (regionBody_queueSpec i (oracle i) r cs)
        (by simpa [runRegions] using ih (i + 1) (regionBody i (oracle i) r cs))

/-- C9: `sampleUsingConstraintSampler` reports success exactly when at least
one goal candidate was inserted into the weighted-goal priority queue during
the call (the queue grew); when every region's attempts are rejected or
skipped, the queue is unchanged and the call returns `false` — there is no
other failure channel. -/
theorem sample_success_iff_goal_inserted (oracle : ℕ → RegionOracle) (s : SamplerState) :
    (sampleUsingConstraintSampler oracle s).success = true ↔
      s.goals_priority_queue.length <
        (sampleUsingConstraintSampler oracle s).s.goals_priority_queue.length := by
  have h := runRegions_queueSpec oracle s.workspace_goal_regions 0 (initCall s)
  obtain ⟨_, hiff⟩ := h
  simpa [sampleUsingConstraintSampler, initCall] using hiff

/-- The attempt body appends exactly one entry to the verbose log: the flag
it hands to the validity callback of this attempt. -/
theorem attemptBody_verboseLog (i : ℕ) (o : RegionOracle) (a : ℕ) (cs : CallState) :
    (attemptBody i o a cs).1.verboseLog = cs.verboseLog ++ [(i, a, verboseFlag o a cs)] := by
  cases h : attemptOutcome o a <;> simp [attemptBody, h]

/-- `verbose_display_` grows by one exactly when the verbose flag fires. -/
theorem attemptBody_verbose_display (i : ℕ) (o : RegionOracle) (a : ℕ) (cs : CallState) :
    (attemptBody i o a cs).1.s.verbose_display =
      if verboseFlag o a cs then cs.s.verbose_display + 1 else cs.s.verbose_display := by
  cases h : attemptOutcome o a <;> simp [attemptBody, h]

/-- Relation between call states: the verbose log only grows,
`verbose_display_` counts exactly the raised flags of the new entries, it
never exceeds `max initial 1`, and every raised flag belongs to an attempt
index at or past `max_attempts_div2` taken while the sampler's state count
was 0. -/
def VerboseSpec (orc : ℕ → RegionOracle) (cs cs' : CallState) : Prop :=
  ∃ new : List (ℕ × ℕ × Bool),
    cs'.verboseLog = cs.verboseLog ++ new ∧
    cs'.s.verbose_display =
      cs.s.verbose_display + (new.filter (fun e => e.2.2)).length ∧
    cs'.s.verbose_display ≤ max cs.s.verbose_display 1 ∧
    ∀ e ∈ new, e.2.2 = true →
      max_attempts_div2 ≤ e.2.1 ∧ (orc e.1).stateCount e.2.1 = 0

/-- `VerboseSpec` holds between states with equal verbose fields. -/
theorem verboseSpec_of_eq (orc : ℕ → RegionOracle) (cs cs' : CallState)
    (hl : cs'.verboseLog = cs.verboseLog)
    (hd : cs'.s.verbose_display = cs.s.verbose_display) : VerboseSpec orc cs cs' :=
  ⟨[], by simp [hl], by simp [hd], by rw [hd]; exact le_max_left _ _, by simp⟩

/-- `VerboseSpec` composes. -/
theorem verboseSpec_trans {orc : ℕ → RegionOracle} {a b c : CallState}
    (h1 : VerboseSpec orc a b) (h2 : VerboseSpec orc b c) : VerboseSpec orc a c := by
  obtain ⟨n1, l1, d1, m1, p1⟩ := h1
  obtain ⟨n2, l2, d2, m2, p2⟩ := h2
  refine ⟨n1 ++ n2, ?_, ?_, ?_, ?_⟩
  · rw [l2, l1, List.append_assoc]
  · rw [d2, d1, List.filter_append, List.length_append]
    ring
  · omega
  · intro e he
    rcases List.mem_append.mp he with h | h
    · exact p1 e h
    · exact p2 e h

/-- One attempt body respects `VerboseSpec`. -/
theorem attemptBody_verboseSpec (orc : ℕ → RegionOracle) (i : ℕ) (o : RegionOracle)
    (a : ℕ) (cs : CallState) (ho : orc i = o) :
    VerboseSpec orc cs (attemptBody i o a cs).1 := by
  refine ⟨[(i, a, verboseFlag o a cs)], attemptBody_verboseLog i o a cs, ?_, ?_, ?_⟩
  · rw [attemptBody_verbose_display]
    by_cases hv : verboseFlag o a cs = true <;> simp [hv]
  · rw [attemptBody_verbose_display]
    by_cases hv : verboseFlag o a cs = true
    · have hd : cs.s.verbose_display < 1 := by
        have hf := hv
        simp only [verboseFlag, Bool.and_eq_true, decide_eq_true_eq] at hf
        exact hf.2
      simp only [hv, if_true]
      omega
    · simp only [hv, if_false]
      exact le_max_left _ _
  · intro e he hv
    rcases List.mem_singleton.mp he with rfl
    simp only [] at hv
    have hf := hv
    simp only [verboseFlag, Bool.and_eq_true, decide_eq_true_eq, beq_iff_eq] at hf
    exact ⟨hf.1.2, by rw [ho]; exact hf.1.1⟩

/-- The attempt loop respects `VerboseSpec`. -/
theorem attemptLoop_verboseSpec (orc : ℕ → RegionOracle) (i : ℕ) (o : RegionOracle)
    (ho : orc i = o) :
    ∀ (fuel a : ℕ) (cs : CallState), VerboseSpec orc cs (attemptLoop i o fuel a cs) := by
  intro fuel
  induction fuel with
  | zero => intro a cs; exact verboseSpec_of_eq orc cs cs rfl rfl
  | succ fuel ih =>
      intro a cs
      by_cases hs : o.isSampling a = true
      · have hstep : VerboseSpec orc cs
            (attemptBody i o a { cs with attemptsLog := cs.attemptsLog ++ [(i, a)] }).1 :=
          verboseSpec_trans
            (verboseSpec_of_eq orc cs { cs with attemptsLog := cs.attemptsLog ++ [(i, a)] }
              rfl rfl)
            (attemptBody_verboseSpec orc i o a
              { cs with attemptsLog := cs.attemptsLog ++ [(i, a)] } ho)
        by_cases hb :
            (attemptBody i o a { cs with attemptsLog := cs.attemptsLog ++ [(i, a)] }).2 = true
        · simpa [attemptLoop, hs, hb] using hstep
        · rw [Bool.not_eq_true] at hb
          have := verboseSpec_trans hstep (ih (a + 1)
            (attemptBody i o a { cs with attemptsLog := cs.attemptsLog ++ [(i, a)] }).1)
          simpa [attemptLoop, hs, hb] using this
      · rw [Bool.not_eq_true] at hs
        simpa [attemptLoop, hs] using verboseSpec_of_eq orc cs cs rfl rfl

/-- One region iteration respects `VerboseSpec`. -/
theorem regionBody_verboseSpec (orc : ℕ → RegionOracle) (i : ℕ)
    (r : WorkspaceGoalRegion) (cs : CallState) :
    VerboseSpec orc cs (regionBody i (orc i) r cs) := by
  unfold regionBody
  by_cases hsol : (orc i).hasSolution = true
  · simpa [hsol] using verboseSpec_of_eq orc cs
      { cs with s := { cs.s with
          constrs := updateConstraintAt cs.s.constrs i r (orc i).sampledPose } } rfl rfl
  · rw [Bool.not_eq_true] at hsol
    simp only [hsol, Bool.false_eq_true, if_false]
    exact verboseSpec_trans
      (verboseSpec_of_eq orc cs
        { cs with s := { cs.s with
            constrs := updateConstraintAt cs.s.constrs i r (orc i).sampledPose } } rfl rfl)
      (attemptLoop_verboseSpec orc i (orc i) rfl max_attempts 0
        { cs with s := { cs.s with
            constrs := updateConstraintAt cs.s.constrs i r (orc i).sampledPose } })

/-- The region loop respects `VerboseSpec`. -/
theorem runRegions_verboseSpec (oracle : ℕ → RegionOracle) :
    ∀ (rs : List WorkspaceGoalRegion) (i : ℕ) (cs : CallState),
      VerboseSpec oracle cs (runRegions oracle rs i cs) := by
  intro rs
  induction rs with
  | nil => intro i cs; exact verboseSpec_of_eq oracle cs cs rfl rfl
  | cons r rest ih =>
      intro i cs
      exact verboseSpec_trans (regionBody_verboseSpec oracle i r cs)
        (by simpa [runRegions] using ih (i + 1) (regionBody i (oracle i) r cs))

/-- One whole call respects `VerboseSpec` from its initial state. -/
theorem sample_verboseSpec (oracle : ℕ → RegionOracle) (s : SamplerState) :
    VerboseSpec oracle (initCall s) (sampleUsingConstraintSampler oracle s) :=
  runRegions_verboseSpec oracle s.workspace_goal_regions 0 (initCall s)

/-- Over a lifetime, the verbose-true count equals the total growth of
`verbose_display_`, which stays below `max initial 1`. -/
theorem runLifetime_verbose_count (oracles : List (ℕ → RegionOracle)) :
    ∀ s : SamplerState,
      (runLifetime oracles s).verboseTrues + s.verbose_display =
        (runLifetime oracles s).finalState.verbose_display ∧
      (runLifetime oracles s).finalState.verbose_display ≤ max s.verbose_display 1 := by
  induction oracles with
  | nil => intro s; exact ⟨by simp [runLifetime], by simp [runLifetime]⟩
  | cons o os ih =>
      intro s
      obtain ⟨new, hl, hcount, hmax, _⟩ := sample_verboseSpec o s
      have hl' : (sampleUsingConstraintSampler o s).verboseLog = new := by
        simpa [initCall] using hl
      have hcount' : (sampleUsingConstraintSampler o s).s.verbose_display =
          s.verbose_display +
            ((sampleUsingConstraintSampler o s).verboseLog.filter (fun e => e.2.2)).length := by
        rw [hl']
        simpa [initCall] using hcount
      have hmax' : (sampleUsingConstraintSampler o s).s.verbose_display ≤
          max s.verbose_display 1 := by
        simpa [initCall] using hmax
      obtain ⟨ih1, ih2⟩ := ih (sampleUsingConstraintSampler o s).s
      constructor
      · simp only [runLifetime]
        omega
      · simp only [runLifetime]
        omega

/-- A region oracle that always fails projection: the attempt loop runs its
whole budget with no state change besides the verbose bookkeeping. -/
def oAllReject : RegionOracle :=
  { sampledPose := exSample
    hasSolution := false
    attempts_so_far := 0
    hasConstraintSampler := true
    isSampling := fun _ => true
    stateCount := fun _ => 0
    projectOk := fun _ => false
    decideOk := fun _ => false
    validOk := fun _ => false }

/-- C5, counterexample: with `max_attempts = 2` the code raises the verbose
flag on attempt index 1 — an attempt of the second half (`a ≥ max_attempts/2`)
— never on attempt 0.  The claim says verbose is true only on the first
`max_attempts/2` attempts, i.e. only at index 0; the log of this concrete
call has its sole raised flag at index 1. -/
theorem verbose_true_only_on_second_half :
    (sampleUsingConstraintSampler (fun _ => oAllReject) exState).verboseLog =
      [(0, 0, false), (0, 1, true)] ∧
    max_attempts_div2 = 1 := by
  constructor
  · decide
  · decide

/-- C5, amended: the verbose flag handed to the validity callback is raised
only on attempts of the second half of the budget (`a ≥ max_attempts/2`, not
the first half), only while the sampler's accepted-state count is still 0,
and at most once over the whole lifetime of the sampler instance, across all
calls and regions. -/
theorem verbose_flag_discipline :
    (∀ (oracle : ℕ → RegionOracle) (s : SamplerState) (e : ℕ × ℕ × Bool),
        e ∈ (sampleUsingConstraintSampler oracle s).verboseLog → e.2.2 = true →
        max_attempts_div2 ≤ e.2.1 ∧ (oracle e.1).stateCount e.2.1 = 0) ∧
    (∀ (oracles : List (ℕ → RegionOracle)) (s : SamplerState),
        s.verbose_display = 0 → (runLifetime oracles s).verboseTrues ≤ 1) := by
  constructor
  · intro oracle s e he hv
    obtain ⟨new, hl, _, _, hprop⟩ := sample_verboseSpec oracle s
    have hmem : e ∈ new := by
      rw [hl] at he
      simpa [initCall] using he
    exact hprop e hmem hv
  · intro oracles s h0
    obtain ⟨h1, h2⟩ := runLifetime_verbose_count oracles s
    omega

/-- Witness for C5 at a concrete input: the raised flag of the concrete call
sits at attempt index 1 with state count 0, and the lifetime made of that
single call raises verbose at most once. -/
theorem verbose_flag_discipline_witness :
    ((0, 1, true) ∈ (sampleUsingConstraintSampler (fun _ => oAllReject) exState).verboseLog ∧
      exState.verbose_display = 0) ∧
    (max_attempts_div2 ≤ 1 ∧ oAllReject.stateCount 1 = 0) ∧
    (runLifetime [fun _ => oAllReject] exState).verboseTrues ≤ 1 :=
  ⟨⟨by decide, rfl⟩,
    verbose_flag_discipline.1 (fun _ => oAllReject) exState (0, 1, true) (by decide) rfl,
    verbose_flag_discipline.2 [fun _ => oAllReject] exState rfl⟩

/-- Relation between call states: the warned flag is never reset, and
`warningsRaised` counts exactly one event when the flag flips. -/
def WarnSpec (cs cs' : CallState) : Prop :=
  (cs.s.warned_invalid_samples = true → cs'.s.warned_invalid_samples = true) ∧
  cs'.warningsRaised = cs.warningsRaised +
    (if cs'.s.warned_invalid_samples && !cs.s.warned_invalid_samples then 1 else 0)

/-- `WarnSpec` holds between states with equal warning fields. -/
theorem warnSpec_of_eq (cs cs' : CallState)
    (hw : cs'.s.warned_invalid_samples = cs.s.warned_invalid_samples)
    (hr : cs'.warningsRaised = cs.warningsRaised) : WarnSpec cs cs' := by
  refine ⟨fun h => by rw [hw]; exact h, ?_⟩
  rw [hw, hr]
  cases cs.s.warned_invalid_samples <;> simp

/-- `WarnSpec` composes. -/
theorem warnSpec_trans {a b c : CallState}
    (h1 : WarnSpec a b) (h2 : WarnSpec b c) : WarnSpec a c := by
  obtain ⟨m1, e1⟩ := h1
  obtain ⟨m2, e2⟩ := h2
  refine ⟨fun h => m2 (m1 h), ?_⟩
  rw [e2, e1]
  cases ha : a.s.warned_invalid_samples <;> cases hb : b.s.warned_invalid_samples <;>
    cases hc : c.s.warned_invalid_samples <;> simp_all

/-- One attempt body respects `WarnSpec`: a constraint rejection fires the
warning exactly when the flag was unset and the invalid count reaches the
threshold; every other outcome leaves both fields alone. -/
theorem attemptBody_warnSpec (i : ℕ) (o : RegionOracle) (a : ℕ) (cs : CallState) :
    WarnSpec cs (attemptBody i o a cs).1 := by
  cases h : attemptOutcome o a
  case rejectedConstraint =>
    by_cases hw : cs.s.warned_invalid_samples = true
    · refine ⟨fun _ => ?_, ?_⟩ <;> simp [attemptBody, h, hw]
    · rw [Bool.not_eq_true] at hw
      by_cases ht : o.attempts_so_far * 8 / 10 ≤ cs.s.invalid_sampled_constraints + 1
      · refine ⟨?_, ?_⟩ <;> simp [attemptBody, h, hw, ht]
      · refine ⟨?_, ?_⟩ <;> simp [attemptBody, h, hw, ht]
  all_goals
    refine warnSpec_of_eq cs (attemptBody i o a cs).1 ?_ ?_ <;> simp [attemptBody, h]

/-- The attempt loop respects `WarnSpec`. -/
theorem attemptLoop_warnSpec (i : ℕ) (o : RegionOracle) :
    ∀ (fuel a : ℕ) (cs : CallState), WarnSpec cs (attemptLoop i o fuel a cs) := by
  intro fuel
  induction fuel with
  | zero => intro a cs; exact warnSpec_of_eq cs cs rfl rfl
  | succ fuel ih =>
      intro a cs
      by_cases hs : o.isSampling a = true
      · have hstep : WarnSpec cs
            (attemptBody i o a { cs with attemptsLog := cs.attemptsLog ++ [(i, a)] }).1 :=
          warnSpec_trans
            (warnSpec_of_eq cs { cs with attemptsLog := cs.attemptsLog ++ [(i, a)] } rfl rfl)
            (attemptBody_warnSpec i o a { cs with attemptsLog := cs.attemptsLog ++ [(i, a)] })
        by_cases hb :
            (attemptBody i o a { cs with attemptsLog := cs.attemptsLog ++ [(i, a)] }).2 = true
        · simpa [attemptLoop, hs, hb] using hstep
        · rw [Bool.not_eq_true] at hb
          have := warnSpec_trans hstep (ih (a + 1)
            (attemptBody i o a { cs with attemptsLog := cs.attemptsLog ++ [(i, a)] }).1)
          simpa [attemptLoop, hs, hb] using this
      · rw [Bool.not_eq_true] at hs
        simpa [attemptLoop, hs] using warnSpec_of_eq cs cs rfl rfl

/-- One region iteration respects `WarnSpec`. -/
theorem regionBody_warnSpec (i : ℕ) (o : RegionOracle) (r : WorkspaceGoalRegion)
    (cs : CallState) : WarnSpec cs (regionBody i o r cs) := by
  unfold regionBody
  by_cases hsol : o.hasSolution = true
  · simpa [hsol] using warnSpec_of_eq cs
      { cs with s := { cs.s with
          constrs := updateConstraintAt cs.s.constrs i r o.sampledPose } } rfl rfl
  · rw [Bool.not_eq_true] at hsol
    simp only [hsol, Bool.false_eq_true, if_false]
    exact warnSpec_trans
      (warnSpec_of_eq cs
        { cs with s := { cs.s with
            constrs := updateConstraintAt cs.s.constrs i r o.sampledPose } } rfl rfl)
      (attemptLoop_warnSpec i o max_attempts 0
        { cs with s := { cs.s with
            constrs := updateConstraintAt cs.s.constrs i r o.sampledPose } })

/-- The region loop respects `WarnSpec`. -/
theorem runRegions_warnSpec (oracle : ℕ → RegionOracle) :
    ∀ (rs : List WorkspaceGoalRegion) (i : ℕ) (cs : CallState),
      WarnSpec cs (runRegions oracle rs i cs) := by
  intro rs
  induction rs with
  | nil => intro i cs; exact warnSpec_of_eq cs cs rfl rfl
  | cons r rest ih =>
      intro i cs
      exact warnSpec_trans (regionBody_warnSpec i (oracle i) r cs)
        (by simpa [runRegions] using ih (i + 1) (regionBody i (oracle i) r cs))

/-- One whole call respects `WarnSpec` from its initial state. -/
theorem sample_warnSpec (oracle : ℕ → RegionOracle) (s : SamplerState) :
    WarnSpec (initCall s) (sampleUsingConstraintSampler oracle s) :=
  runRegions_warnSpec oracle s.workspace_goal_regions 0 (initCall s)

/-- Over a lifetime, the number of warning events equals one exactly when
the warned flag flipped, and the flag never resets. -/
theorem runLifetime_warning_count (oracles : List (ℕ → RegionOracle)) :
    ∀ s : SamplerState,
      (runLifetime oracles s).warningEvents =
        (if (runLifetime oracles s).finalState.warned_invalid_samples &&
            !s.warned_invalid_samples then 1 else 0) ∧
      (s.warned_invalid_samples = true →
        (runLifetime oracles s).finalState.warned_invalid_samples = true) := by
  induction oracles with
  | nil =>
      intro s
      refine ⟨?_, fun h => by simpa [runLifetime] using h⟩
      cases h : s.warned_invalid_samples <;> simp [runLifetime, h]
  | cons o os ih =>
      intro s
      obtain ⟨mono1, e1⟩ := sample_warnSpec o s
      have hmono1 : s.warned_invalid_samples = true →
          (sampleUsingConstraintSampler o s).s.warned_invalid_samples = true := by
        intro h
        exact mono1 (by simpa [initCall] using h)
      have he1 : (sampleUsingConstraintSampler o s).warningsRaised =
          (if (sampleUsingConstraintSampler o s).s.warned_invalid_samples &&
              !s.warned_invalid_samples then 1 else 0) := by
        simpa [initCall] using e1
      obtain ⟨ihc, ihm⟩ := ih (sampleUsingConstraintSampler o s).s
      constructor
      · simp only [runLifetime]
        rw [ihc, he1]
        cases hs : s.warned_invalid_samples <;>
          cases hr : (sampleUsingConstraintSampler o s).s.warned_invalid_samples
        · simp
        · have hw2 := ihm hr
          simp [hw2]
        · have := hmono1 hs
          simp_all
        · have hw2 := ihm hr
          simp [hw2]
      · intro h
        simp only [runLifetime]
        exact ihm (hmono1 h)

/-- C8, counterexample: with `attempts_so_far = 10` and the invalid counter
reaching 8, the code fires the warning although 8 is exactly 80% of 10 —
the count does not *exceed* 80% of the attempts made so far, yet
`warningsRaised` becomes 1 (the code tests `count ≥ (attempts*8)/10`). -/
def oWarnCx : RegionOracle :=
  { sampledPose := exSample
    hasSolution := false
    attempts_so_far := 10
    hasConstraintSampler := true
    isSampling := fun a => a == 0
    stateCount := fun _ => 0
    projectOk := fun _ => true
    decideOk := fun _ => false
    validOk := fun _ => false }

/-- A sampler state whose invalid counter already sits at 7, warning not
yet fired. -/
def warnState : SamplerState :=
  { exState with invalid_sampled_constraints := 7 }

/-- C8, counterexample: the concrete call increments the invalid counter to
8 and fires the diagnostic, with `attempts_so_far = 10`; but 8 does not
exceed 80% of 10, contradicting the claim's firing condition. -/
theorem warning_fires_at_exactly_eighty_percent :
    (sampleUsingConstraintSampler (fun _ => oWarnCx) warnState).warningsRaised = 1 ∧
    (sampleUsingConstraintSampler (fun _ => oWarnCx) warnState).s.invalid_sampled_constraints
        = 8 ∧
    (sampleUsingConstraintSampler (fun _ => oWarnCx) warnState).s.warned_invalid_samples
        = true ∧
    oWarnCx.attempts_so_far = 10 ∧
    ¬((8 : ℚ) > (8 / 10) * 10) := by
  refine ⟨by decide, by decide, by decide, rfl, by norm_num⟩

/-- C8, amended: a failed constraint check increments the running invalid
counter and does not break the loop; the warned flag becomes set exactly when
it was unset and the new count reaches `(attempts_so_far * 8) / 10` (integer
floor of 80%, reached also at or slightly below 80%); and over the sampler's
whole lifetime at most one warning event occurs, since the flag is never
reset. -/
theorem invalid_counter_and_one_time_warning :
    (∀ (i : ℕ) (o : RegionOracle) (a : ℕ) (cs : CallState),
        attemptOutcome o a = AttemptOutcome.rejectedConstraint →
        (attemptBody i o a cs).1.s.invalid_sampled_constraints =
            cs.s.invalid_sampled_constraints + 1 ∧
        (attemptBody i o a cs).2 = false ∧
        ((attemptBody i o a cs).1.s.warned_invalid_samples = true ↔
          (cs.s.warned_invalid_samples = true ∨
            o.attempts_so_far * 8 / 10 ≤ cs.s.invalid_sampled_constraints + 1))) ∧
    (∀ (oracles : List (ℕ → RegionOracle)) (s : SamplerState),
        (runLifetime oracles s).warningEvents ≤ 1) := by
  constructor
  · intro i o a cs h
    refine ⟨by simp [attemptBody, h], by simp [attemptBody, h], ?_⟩
    cases hw : cs.s.warned_invalid_samples <;> simp [attemptBody, h, hw]
  · intro oracles s
    have h := (runLifetime_warning_count oracles s).1
    rw [h]
    split <;> omega

/-- Witness for C8 at a concrete input: the failing attempt takes the
counter from 7 to 8, does not break, sets the flag (the threshold
`10·8/10 = 8` is reached), and the single-call lifetime shows at most one
warning event. -/
theorem invalid_counter_and_one_time_warning_witness :
    (attemptBody 0 oWarnCx 0 (initCall warnState)).1.s.invalid_sampled_constraints = 8 ∧
    (attemptBody 0 oWarnCx 0 (initCall warnState)).2 = false ∧
    (attemptBody 0 oWarnCx 0 (initCall warnState)).1.s.warned_invalid_samples = true ∧
    (runLifetime [fun _ => oWarnCx] warnState).warningEvents ≤ 1 := by
  have h := invalid_counter_and_one_time_warning.1 0 oWarnCx 0 (initCall warnState) (by decide)
  refine ⟨by rw [h.1]; decide, h.2.1, h.2.2.mpr (Or.inr (by decide)), ?_⟩
  exact invalid_counter_and_one_time_warning.2 [fun _ => oWarnCx] warnState

end GoalRegionSampler
